import Mathlib

/-!
Shallow embedding of the task-scheduling core of a cooperative async
scheduler crate (executor run loop, wake-bitmask protocol, sleep
primitive, single-slot mailboxes), together with theorems checking the
natural-language specification against it.

Machine integers are modelled as `Int`/`Nat` with explicit `% 2^w`
where the source truncates; fallible operations return `Except`/`Option`.
-/

namespace RustAsyncScheduler

/-! ## Time model (src/src/time.rs)

`Instant` wraps an `i64` tick count; ordering is the `i64` ordering.
We model the tick count as a plain `Int` (every `Instant` below is an
`Int`); the `i64` sentinels `MIN`/`MAX` are the explicit bounds. -/

/-- Instant::MAX, the largest i64. -/
def Instant.MAX : Int := 9223372036854775807

/-- Instant::MIN, the smallest i64. -/
def Instant.MIN : Int := -9223372036854775808

/-! ## Wake protocol (src/src/waker.rs)

A `WakerInfo` holds `task_mask`, a single-bit `NonZeroU32` equal to
`1 << task_idx`, and a pointer to the executor's shared ready-bitmask
(an `AtomicU32`).  We model the shared bitmask as an explicit `Nat`
(< 2^32) threaded through each operation. -/

/-- WakerError (waker.rs:7-9). -/
inductive WakerError where
  | TaskIndexOutOfRange
deriving DecidableEq, Repr

/-- WakerInfo (waker.rs:14-18): the per-task wake handle.  Only the
single-bit `task_mask` is data; the pointed-to ready mask is passed
explicitly to each operation. -/
structure WakerInfo where
  task_mask : Nat
deriving DecidableEq, Repr

/-- u32::MAX, used for the `!task_mask` complement. -/
def U32MAX : Nat := 4294967295

/-- WakerInfo::new (waker.rs:22-34): `1u32.checked_shl(task_idx as u32)`
fails for shift amounts >= 32; the `usize -> u32` cast truncates the
index mod 2^32.  On success the new handle's bit is OR-ed into the
shared ready mask (`fetch_or`), and the handle plus the updated mask are
returned. -/
def WakerInfo.new (task_idx : Nat) (executor_ready_mask : Nat) :
    Except WakerError (WakerInfo × Nat) :=
  let shift := task_idx % 4294967296
  if shift ≥ 32 then
    .error .TaskIndexOutOfRange
  else
    let task_mask := 2 ^ shift
    .ok (⟨task_mask⟩, executor_ready_mask ||| task_mask)

/-- WakerInfo::wake_task (waker.rs:51-54): `fetch_or` the handle's bit
into the shared ready mask; returns the updated mask. -/
def WakerInfo.wake_task (w : WakerInfo) (mask : Nat) : Nat :=
  mask ||| w.task_mask

/-- WakerInfo::is_task_runnable (waker.rs:43-49):
`fetch_and(!task_mask)` clears the handle's bit and returns the
previous mask; the call reports whether the bit had been set.  Returns
(result, updated mask). -/
def WakerInfo.is_task_runnable (w : WakerInfo) (mask : Nat) : Bool × Nat :=
  let prev_mask := mask
  (decide (prev_mask &&& w.task_mask ≠ 0), mask &&& (U32MAX ^^^ w.task_mask))

/-- Operations a client can perform on one wake handle. -/
inductive WakerOp where
  | wake
  | take
deriving DecidableEq, Repr

/-- Runs a sequence of wake_task / is_task_runnable calls on one handle,
returning the final shared-mask state. -/
def runOps (w : WakerInfo) (mask : Nat) : List WakerOp → Nat
  | [] => mask
  | .wake :: rest => runOps w (w.wake_task mask) rest
  | .take :: rest => runOps w (w.is_task_runnable mask).2 rest

/-! ## Executor: per-slot wakeup request (src/src/executor.rs) -/

/-- LocalExecutor::request_wakeup (executor.rs:202-210), acting on the
current task's `sleep_until` cell: if
`sleep_until.get().unwrap_or(Instant::MAX) > wake_at`, store
`Some(wake_at)`; otherwise the cell is left unchanged. -/
def request_wakeup (sleep_until : Option Int) (wake_at : Int) :
    Option Int :=
  if sleep_until.getD Instant.MAX > wake_at then some wake_at else sleep_until

/-! ## Sleep and yield values (src/src/sleep.rs, src/src/yield_now.rs) -/

/-- Sleep (sleep.rs:10-18): awaitable holding its absolute wake deadline,
fixed at construction. -/
structure Sleep where
  wake_at_tick : Int
deriving DecidableEq, Repr

/-- Yield (yield_now.rs:7-15): Yield::new() starts with ready = false. -/
structure Yield where
  ready : Bool
deriving DecidableEq, Repr

/-- LocalExecutor::sleep (executor.rs:197-200):
`Sleep::new(environment().ticks() + duration)` — the deadline is the
environment clock at creation plus the duration. -/
def LocalExecutor.sleep (ticks : Int) (duration : Int) : Sleep :=
  ⟨ticks + duration⟩

/-- free fn request_wakeup (executor.rs:232-243): one poll of a sleep
with deadline `wake_at` when the clock reads `now`, acting on the
current slot's `sleep_until` cell: `Poll::Ready` if
`environment().ticks() >= wake_at`, otherwise the wakeup request is
recorded via LocalExecutor::request_wakeup and the poll is pending.
Returns (poll-is-ready, updated sleep_until cell). -/
def pollSleep (now wake_at : Int) (sleep_until : Option Int) :
    Bool × Option Int :=
  if now ≥ wake_at then (true, sleep_until)
  else (false, request_wakeup sleep_until wake_at)

/-! ## Free functions reaching the current executor (src/src/executor.rs)

The scoped current-executor registration is modelled as an
`Option Unit` (some () = an executor is registered for the calling
context); the environment clock is passed explicitly.  A call that
panics (`expect` on a missing executor) is modelled as `none`; a call
that returns normally is `some result`. -/

/-- free fn sleep (executor.rs:218-224):
`environment().current_executor().expect(..).sleep(duration)` — aborts
when no current executor is registered, otherwise builds the Sleep
via LocalExecutor::sleep. -/
def sleepFree (current_executor : Option Unit) (ticks duration : Int) :
    Option Sleep :=
  match current_executor with
  | none => none
  | some _ => some (LocalExecutor.sleep ticks duration)

/-- free fn yield_now (executor.rs:213-216): returns `Yield::new()`
without consulting the current-executor registration at all. -/
def yieldNowFree (_current_executor : Option Unit) : Option Yield :=
  some ⟨false⟩

/-- free fn now (executor.rs:226-229): returns `environment().ticks()`;
there is no current-executor check. -/
def nowFree (_current_executor : Option Unit) (ticks : Int) : Option Int :=
  some ticks

/-! ## Executor run pass (src/src/executor.rs)

A run pass polls every occupied slot once and combines the per-slot
requirements with min_by_key over RunResult::tuple.  The pass outcome
depends only on the slots' post-poll states, which we take as input:
none = the slot is free (its task finished), some d = the slot is still
occupied with sleep_until cell d. -/

/-- RunResult (executor.rs:84-91). -/
inductive RunResult where
  | WaitForTick (tick : Int)
  | WaitForEvent
  | NoMoreTasks
deriving DecidableEq, Repr

/-- RunResult::tuple (executor.rs:93-102): maps the enum to a
(usize, Instant) pair for the derived lexicographic tuple order. -/
def RunResult.tuple : RunResult → Nat × Int
  | .WaitForTick tick => (0, tick)
  | .WaitForEvent => (1, Instant.MIN)
  | .NoMoreTasks => (2, Instant.MIN)

/-- Strict lexicographic order on the Rust (usize, Instant) tuples. -/
def tupleLt (a b : Nat × Int) : Prop :=
  a.1 < b.1 ∨ (a.1 = b.1 ∧ a.2 < b.2)

instance (a b : Nat × Int) : Decidable (tupleLt a b) := by
  unfold tupleLt
  infer_instance

/-- one step of Iterator::min_by_key (executor.rs:160): keep the current
minimum, replacing it only when the new key is strictly smaller (Rust's
min_by_key returns the first minimal element). -/
def minByTuple (a b : RunResult) : RunResult :=
  if tupleLt b.tuple a.tuple then b else a

/-- tail of run_task (executor.rs:185-193): the RunResult a slot
contributes, read off its post-poll state. -/
def run_task (cell : Option (Option Int)) : RunResult :=
  match cell with
  | some (some tick) => .WaitForTick tick
  | some none => .WaitForEvent
  | none => .NoMoreTasks

/-- run_once (executor.rs:150-162): map run_task over all slots and take
min_by_key RunResult::tuple; an empty iterator yields NoMoreTasks
(unwrap_or). -/
def run_once (slots : List (Option (Option Int))) : RunResult :=
  match slots.map run_task with
  | [] => .NoMoreTasks
  | r :: rs => rs.foldl minByTuple r

/-- dispatch in LocalExecutor::run (executor.rs:132-143): what the run
loop does with a pass result. -/
inductive LoopAction where
  | waitWithDeadline (tick : Int)
  | waitForEvent
  | stop
deriving DecidableEq, Repr

/-- dispatch in LocalExecutor::run (executor.rs:132-143): WaitForTick
waits with that deadline, WaitForEvent waits with no deadline,
NoMoreTasks breaks the loop. -/
def runDispatch : RunResult → LoopAction
  | .WaitForTick tick => .waitWithDeadline tick
  | .WaitForEvent => .waitForEvent
  | .NoMoreTasks => .stop

/-- the pending sleep deadlines of the still-occupied slots. -/
def slotDeadlines (slots : List (Option (Option Int))) : List Int :=
  slots.filterMap fun c => c.bind id

/-- Specification-side pass outcome, following the spec's words for
comparison with run_once: the earliest pending sleep deadline if one
exists, else wait indefinitely if occupied slots remain, else stop. -/
def passSpec (slots : List (Option (Option Int))) : RunResult :=
  match slotDeadlines slots with
  | [] => if slots.any Option.isSome then .WaitForEvent else .NoMoreTasks
  | d :: ds => .WaitForTick (ds.foldl min d)

/-! ## Mailboxes (src/src/mailbox.rs, src/src/sync/mailbox.rs)

Both variants store one optional value and one optional registered
waiter.  The registered core::task::Waker wraps the reading task's
WakerInfo, so the waiter cell is modelled as an optional WakerInfo; the
sync variant puts both cells behind a critical section, which collapses
in this sequential model, so one state type serves both. -/

/-- Error (mailbox.rs:14-18), re-exported by the sync variant. -/
inductive Error where
  | AlreadyWaiting
deriving DecidableEq, Repr

/-- Mailbox (mailbox.rs:8-11 and sync/mailbox.rs:12-15): one optional
stored value, one optional registered waiter. -/
structure Mailbox (T : Type) where
  value : Option T
  waker : Option WakerInfo
deriving DecidableEq, Repr

/-- Mailbox::post of the plain variant (mailbox.rs:44-53): replace the
stored value, take the registered waker and, if one was registered,
wake it.  Returns (new mailbox state, previous value, ready mask after
the wake). -/
def Mailbox.post {T : Type} (m : Mailbox T) (v : T) (mask : Nat) :
    Mailbox T × Option T × Nat :=
  let old_value := m.value
  let waker := m.waker
  (⟨some v, none⟩, old_value,
    match waker with
    | some w => w.wake_task mask
    | none => mask)

/-- critical-section body of the sync Mailbox::post
(sync/mailbox.rs:42-48): replace the value and take the waker; the
shared ready mask is not an input, so it cannot be touched while the
critical section is held. -/
def Mailbox.postCS {T : Type} (m : Mailbox T) (v : T) :
    Mailbox T × Option T × Option WakerInfo :=
  (⟨some v, none⟩, m.value, m.waker)

/-- sync Mailbox::post (sync/mailbox.rs:41-54): run the critical
section, then wake the taken waker (if any) after the critical section
has been released. -/
def Mailbox.postSync {T : Type} (m : Mailbox T) (v : T) (mask : Nat) :
    Mailbox T × Option T × Nat :=
  let r := Mailbox.postCS m v
  (r.1, r.2.1,
    match r.2.2 with
    | some w => w.wake_task mask
    | none => mask)

/-- busy check at the head of Mailbox::read (mailbox.rs:56-63, sync
variant sync/mailbox.rs:58-70): take the waker; if one was registered,
restore it and fail with AlreadyWaiting, else proceed.  Returns
(result, mailbox state afterwards). -/
def Mailbox.readCheck {T : Type} (m : Mailbox T) :
    Except Error Unit × Mailbox T :=
  match m.waker with
  | some waker => (.error .AlreadyWaiting, { m with waker := some waker })
  | none => (.ok (), m)

/-- MailboxFuture::poll (mailbox.rs:78-87, sync variant
sync/mailbox.rs:100-109): take the stored value if present and complete
with it, else register the polling task's waker and stay pending.
Returns (poll result, mailbox state afterwards). -/
def Mailbox.pollRead {T : Type} (m : Mailbox T) (cx_waker : WakerInfo) :
    Option T × Mailbox T :=
  match m.value with
  | some v => (some v, { m with value := none })
  | none => (none, { m with waker := some cx_waker })

/-- Drop for the sync MailboxFuture (sync/mailbox.rs:112-116): clears
the waiter registration. -/
def Mailbox.dropReadSync {T : Type} (m : Mailbox T) : Mailbox T :=
  { m with waker := none }

/-- the plain MailboxFuture (mailbox.rs:71-87) implements no Drop;
abandoning it leaves the mailbox untouched. -/
def Mailbox.dropRead {T : Type} (m : Mailbox T) : Mailbox T := m

/-- sync Mailbox::try_read (sync/mailbox.rs:78-91): if no waiter is
registered, take and return the stored value; otherwise restore the
waiter and fail with AlreadyWaiting.  Returns (result, state). -/
def Mailbox.try_read {T : Type} (m : Mailbox T) :
    Except Error (Option T) × Mailbox T :=
  match m.waker with
  | none => (.ok m.value, { m with value := none })
  | some waker => (.error .AlreadyWaiting, { m with waker := some waker })

/-! ## Theorems -/

/-- Helper: U32MAX is all-ones below bit 32. -/
lemma U32MAX_testBit (i : Nat) : U32MAX.testBit i = decide (i < 32) := by
  have h : U32MAX = 2 ^ 32 - 1 := by norm_num [U32MAX]
  rw [h, Nat.testBit_two_pow_sub_one]

/-- Helper: the reported result of is_task_runnable is exactly bit i of
the shared mask. -/
lemma is_task_runnable_fst (i m : Nat) :
    (WakerInfo.is_task_runnable ⟨2 ^ i⟩ m).1 = m.testBit i := by
  simp only [WakerInfo.is_task_runnable]
  rcases h : m.testBit i with _ | _ <;>
    simp [Nat.and_two_pow, h]

/-- Helper: is_task_runnable clears bit i of the shared mask. -/
lemma is_task_runnable_clears (i m : Nat) (hi : i < 32) :
    ((WakerInfo.is_task_runnable ⟨2 ^ i⟩ m).2).testBit i = false := by
  simp [WakerInfo.is_task_runnable, Nat.testBit_and, Nat.testBit_xor,
    U32MAX_testBit, hi]

/-- Helper: wake_task sets bit i of the shared mask. -/
lemma wake_task_sets (i m : Nat) :
    ((WakerInfo.wake_task ⟨2 ^ i⟩ m)).testBit i = true := by
  simp [WakerInfo.wake_task, Nat.testBit_or]

/-- Helper: runOps distributes over list append. -/
lemma runOps_append (w : WakerInfo) (m : Nat) (t u : List WakerOp) :
    runOps w m (t ++ u) = runOps w (runOps w m t) u := by
  induction t generalizing m with
  | nil => rfl
  | cons op rest ih => cases op <;> simp [runOps, ih]

/-- Helper: over a take-free suffix, bit i ends up set iff a wake occurs
in the suffix or the bit was set at the start. -/
lemma runOps_no_take_testBit (i : Nat) (m : Nat)
    (u : List WakerOp) (hu : WakerOp.take ∉ u) :
    (runOps ⟨2 ^ i⟩ m u).testBit i
      = (decide (WakerOp.wake ∈ u) || m.testBit i) := by
  induction u generalizing m with
  | nil => simp [runOps]
  | cons op rest ih =>
    simp only [List.mem_cons, not_or] at hu
    cases op
    · have := ih (WakerInfo.wake_task ⟨2 ^ i⟩ m) hu.2
      simp only [runOps, this, wake_task_sets]
      simp
    · exact absurd rfl hu.1

/-- C2: on any finite sequence of wake_task / is_task_runnable calls on
one handle, a take that follows a previous take returns true iff
wake_task was called at least once in between, and the take clears the
handle's bit in the shared mask as a side effect (so two consecutive
takes with no intervening wake return true then false). -/
theorem c2_wake_protocol (i : Nat) (hi : i < 32) (m : Nat)
    (t u : List WakerOp) (hu : WakerOp.take ∉ u) :
    (WakerInfo.is_task_runnable ⟨2 ^ i⟩
        (runOps ⟨2 ^ i⟩ m (t ++ WakerOp.take :: u))).1
      = decide (WakerOp.wake ∈ u) ∧
    ((WakerInfo.is_task_runnable ⟨2 ^ i⟩
        (runOps ⟨2 ^ i⟩ m (t ++ WakerOp.take :: u))).2).testBit i
      = false := by
  refine ⟨?_, is_task_runnable_clears i _ hi⟩
  rw [runOps_append, is_task_runnable_fst]
  have hstep :
      runOps ⟨2 ^ i⟩ (runOps ⟨2 ^ i⟩ m t) (WakerOp.take :: u)
        = runOps ⟨2 ^ i⟩
            ((WakerInfo.is_task_runnable ⟨2 ^ i⟩ (runOps ⟨2 ^ i⟩ m t)).2) u :=
    rfl
  rw [hstep, runOps_no_take_testBit i _ u hu,
    is_task_runnable_clears i _ hi]
  simp

/-- Witness for C2 at a concrete trace: handle bit 0, empty mask, trace
take-then-wake; the final take returns true and leaves the bit clear. -/
theorem c2_wake_protocol_witness :
    (WakerInfo.is_task_runnable ⟨2 ^ 0⟩
        (runOps ⟨2 ^ 0⟩ 0 ([] ++ WakerOp.take :: [WakerOp.wake]))).1
      = decide (WakerOp.wake ∈ [WakerOp.wake]) ∧
    ((WakerInfo.is_task_runnable ⟨2 ^ 0⟩
        (runOps ⟨2 ^ 0⟩ 0 ([] ++ WakerOp.take :: [WakerOp.wake]))).2).testBit 0
      = false :=
  c2_wake_protocol 0 (by decide) 0 [] [WakerOp.wake] (by decide)

/-- C3: after request_wakeup(w) on a slot whose stored sleep-until value
is s (None read as Instant::MAX), the stored value equals min(s, w):
the executor only ever lowers the stored deadline, never raises it. -/
theorem c3_request_wakeup_min (s : Option Int) (w : Int) :
    (request_wakeup s w).getD Instant.MAX = min (s.getD Instant.MAX) w ∧
    (request_wakeup s w).getD Instant.MAX ≤ s.getD Instant.MAX := by
  unfold request_wakeup
  rcases s with _ | s0 <;>
    simp only [Option.getD_none, Option.getD_some, Instant.MAX, min_def] <;>
    split <;> split <;> simp only [Option.getD_none, Option.getD_some] <;>
    constructor <;> try trivial
  all_goals omega

/-- C8 counterexample: the claim says construction fails iff the slot
index is >= 32, but the `usize -> u32` cast truncates first: index
2^32 = 4294967296 is >= 32 yet construction succeeds, aliasing slot 0
(its bit 2^0 = 1 is set in the mask). -/
theorem c8_new_counterexample :
    (4294967296 : Nat) ≥ 32 ∧
    WakerInfo.new 4294967296 0 = .ok (⟨1⟩, 1) := by
  refine ⟨by norm_num, ?_⟩
  rfl

/-- C8 amended: construction fails with TaskIndexOutOfRange iff the
index truncated to u32 (mod 2^32) is >= 32 — for indices below 2^32,
exactly iff the index is >= 32; on success the slot's bit is
immediately set in the shared ready mask, so a fresh task reports
runnable. -/
theorem c8_new_range (task_idx mask : Nat) :
    (WakerInfo.new task_idx mask = .error .TaskIndexOutOfRange
      ↔ task_idx % 4294967296 ≥ 32) ∧
    (task_idx < 32 →
      WakerInfo.new task_idx mask = .ok (⟨2 ^ task_idx⟩, mask ||| 2 ^ task_idx) ∧
      (WakerInfo.is_task_runnable ⟨2 ^ task_idx⟩ (mask ||| 2 ^ task_idx)).1
        = true) := by
  constructor
  · by_cases h : 32 ≤ task_idx % 4294967296
    · simp [WakerInfo.new, h]
    · simp [WakerInfo.new, h]
  · intro h
    have hmod : task_idx % 4294967296 = task_idx := Nat.mod_eq_of_lt (by omega)
    constructor
    · simp [WakerInfo.new, hmod, show ¬(32 ≤ task_idx) by omega]
    · rw [is_task_runnable_fst]
      simp [Nat.testBit_or]

/-- Witness for C8 amended at index 5, mask 4: success sets bit 5 and
the fresh handle reports runnable; index 40 fails. -/
theorem c8_new_range_witness :
    WakerInfo.new 5 4 = .ok (⟨32⟩, 36) ∧
    (WakerInfo.is_task_runnable ⟨32⟩ 36).1 = true ∧
    WakerInfo.new 40 0 = .error .TaskIndexOutOfRange :=
  ⟨((c8_new_range 5 4).2 (by decide)).1,
   ((c8_new_range 5 4).2 (by decide)).2,
   (c8_new_range 40 0).1.mpr (by decide)⟩

/-- C9 counterexample: the claim says sleep, yield_now and now all abort
when called with no current executor registered, but now() just reads
the environment clock and returns it, and yield_now() constructs its
awaitable without touching the executor at all; neither aborts. -/
theorem c9_no_executor_counterexample :
    nowFree none 5 = some 5 ∧
    yieldNowFree none = some ⟨false⟩ ∧
    sleepFree none 5 7 = none :=
  ⟨rfl, rfl, rfl⟩

/-- C9 amended: of the three free functions, only sleep() aborts when no
executor is registered as current; now() returns the environment clock
and yield_now() returns a fresh Yield regardless of the registration. -/
theorem c9_abort_only_sleep (ticks duration : Int) :
    sleepFree none ticks duration = none ∧
    sleepFree (some ()) ticks duration = some ⟨ticks + duration⟩ ∧
    (∀ cur : Option Unit, nowFree cur ticks = some ticks) ∧
    (∀ cur : Option Unit, yieldNowFree cur = some ⟨false⟩) :=
  ⟨rfl, rfl, fun _ => rfl, fun _ => rfl⟩

/-- C4: a sleep's deadline is the creation-time clock plus the duration;
every poll strictly before the deadline is pending and leaves the
slot's requested wake no later than the deadline; every poll at or
after the deadline is ready (and does not touch the slot). -/
theorem c4_sleep_deadline (ticks duration now wake_at : Int)
    (sleep_until : Option Int) :
    (LocalExecutor.sleep ticks duration).wake_at_tick = ticks + duration ∧
    (now < wake_at →
      (pollSleep now wake_at sleep_until).1 = false ∧
      (pollSleep now wake_at sleep_until).2.getD Instant.MAX ≤ wake_at) ∧
    (now ≥ wake_at →
      (pollSleep now wake_at sleep_until).1 = true ∧
      (pollSleep now wake_at sleep_until).2 = sleep_until) := by
  refine ⟨rfl, fun h => ?_, fun h => ?_⟩
  · unfold pollSleep request_wakeup
    rw [if_neg (by omega)]
    refine ⟨rfl, ?_⟩
    rcases sleep_until with _ | s0 <;>
      simp only [Option.getD_none, Option.getD_some, Instant.MAX] <;>
      split <;> simp only [Option.getD_none, Option.getD_some] <;> omega
  · unfold pollSleep
    rw [if_pos (by omega)]
    exact ⟨rfl, rfl⟩

/-- Witness for C4: deadline 3 + 4; at clock 0 a poll of a sleep with
deadline 5 is pending with the requested wake at most 5; at clock 7 it
is ready. -/
theorem c4_sleep_deadline_witness :
    (LocalExecutor.sleep 3 4).wake_at_tick = 3 + 4 ∧
    (pollSleep 0 5 none).1 = false ∧
    (pollSleep 0 5 none).2.getD Instant.MAX ≤ 5 ∧
    (pollSleep 7 5 none).1 = true :=
  ⟨(c4_sleep_deadline 3 4 0 5 none).1,
   ((c4_sleep_deadline 3 4 0 5 none).2.1 (by decide)).1,
   ((c4_sleep_deadline 3 4 0 5 none).2.1 (by decide)).2,
   ((c4_sleep_deadline 3 4 7 5 none).2.2 (by decide)).1⟩

/-- Helper: tupleLt is irreflexive. -/
lemma not_tupleLt_refl (a : Nat × Int) : ¬ tupleLt a a := by
  unfold tupleLt
  omega

/-- Helper: tupleLt is asymmetric. -/
lemma tupleLt_asymm {a b : Nat × Int} (h : tupleLt a b) : ¬ tupleLt b a := by
  unfold tupleLt at *
  omega

/-- Helper: transitivity of the non-strict tuple order. -/
lemma tle_trans {x y z : Nat × Int} (h1 : ¬ tupleLt x y) (h2 : ¬ tupleLt y z) :
    ¬ tupleLt x z := by
  unfold tupleLt at *
  omega

/-- Helper: minByTuple returns one of its arguments. -/
lemma minByTuple_eq_or (a b : RunResult) :
    minByTuple a b = a ∨ minByTuple a b = b := by
  unfold minByTuple
  split
  · right; rfl
  · left; rfl

/-- Helper: minByTuple is no larger than its left argument. -/
lemma minByTuple_le_left (a b : RunResult) :
    ¬ tupleLt a.tuple (minByTuple a b).tuple := by
  unfold minByTuple
  split
  · exact tupleLt_asymm (by assumption)
  · exact not_tupleLt_refl _

/-- Helper: minByTuple is no larger than its right argument. -/
lemma minByTuple_le_right (a b : RunResult) :
    ¬ tupleLt b.tuple (minByTuple a b).tuple := by
  unfold minByTuple
  split
  · exact not_tupleLt_refl _
  · assumption

/-- Helper: a minByTuple fold returns the accumulator or a list
element. -/
lemma foldl_minByTuple_mem (l : List RunResult) (a : RunResult) :
    l.foldl minByTuple a = a ∨ l.foldl minByTuple a ∈ l := by
  induction l generalizing a with
  | nil => left; rfl
  | cons b rest ih =>
    rw [List.foldl_cons]
    rcases ih (minByTuple a b) with h | h
    · rcases minByTuple_eq_or a b with h2 | h2
      · left; rw [h, h2]
      · right; rw [h, h2]; exact List.mem_cons_self b rest
    · right; exact List.mem_cons_of_mem b h

/-- Helper: a minByTuple fold is a lower bound of the accumulator and
every list element. -/
lemma foldl_minByTuple_le (l : List RunResult) (a : RunResult) :
    ¬ tupleLt a.tuple (l.foldl minByTuple a).tuple ∧
    ∀ x ∈ l, ¬ tupleLt x.tuple (l.foldl minByTuple a).tuple := by
  induction l generalizing a with
  | nil => exact ⟨not_tupleLt_refl _, by simp⟩
  | cons b rest ih =>
    obtain ⟨h1, h2⟩ := ih (minByTuple a b)
    rw [List.foldl_cons]
    refine ⟨tle_trans (minByTuple_le_left a b) h1, ?_⟩
    intro x hx
    rcases List.mem_cons.mp hx with rfl | hx
    · exact tle_trans (minByTuple_le_right a x) h1
    · exact h2 x hx

/-- Helper: an Int min fold returns the accumulator or a list
element. -/
lemma foldl_min_mem (ds : List Int) (d : Int) :
    ds.foldl min d = d ∨ ds.foldl min d ∈ ds := by
  induction ds generalizing d with
  | nil => left; rfl
  | cons e rest ih =>
    rcases ih (min d e) with h | h
    · rcases le_total d e with h2 | h2
      · left; rw [List.foldl_cons, h, min_eq_left h2]
      · right
        rw [List.foldl_cons, h, min_eq_right h2]
        exact List.mem_cons_self e rest
    · right
      rw [List.foldl_cons]
      exact List.mem_cons_of_mem e h

/-- Helper: an Int min fold is a lower bound of the accumulator and
every list element. -/
lemma foldl_min_le (ds : List Int) (d : Int) :
    ds.foldl min d ≤ d ∧ ∀ x ∈ ds, ds.foldl min d ≤ x := by
  induction ds generalizing d with
  | nil => exact ⟨le_refl d, by simp⟩
  | cons e rest ih =>
    obtain ⟨h1, h2⟩ := ih (min d e)
    rw [List.foldl_cons]
    refine ⟨le_trans h1 (min_le_left d e), ?_⟩
    intro x hx
    rcases List.mem_cons.mp hx with rfl | hx
    · exact le_trans h1 (min_le_right d x)
    · exact h2 x hx

/-- Helper: membership in slotDeadlines is being stored occupied with
that deadline. -/
lemma mem_slotDeadlines (slots : List (Option (Option Int))) (x : Int) :
    x ∈ slotDeadlines slots ↔ some (some x) ∈ slots := by
  unfold slotDeadlines
  rw [List.mem_filterMap]
  constructor
  · rintro ⟨c, hc, he⟩
    rcases c with _ | c
    · simp at he
    · rcases c with _ | v <;> simp_all
  · intro h
    exact ⟨some (some x), h, rfl⟩

/-- Helper: a RunResult no larger than a WaitForTick is a WaitForTick
with an earlier-or-equal tick. -/
lemma le_waitForTick (r : RunResult) (d : Int)
    (h : ¬ tupleLt (RunResult.WaitForTick d).tuple r.tuple) :
    ∃ m, r = RunResult.WaitForTick m ∧ m ≤ d := by
  rcases r with m | _ | _
  · refine ⟨m, rfl, ?_⟩
    simp [RunResult.tuple, tupleLt, not_or] at h
    omega
  · exfalso
    apply h
    unfold RunResult.tuple tupleLt
    simp
  · exfalso
    apply h
    unfold RunResult.tuple tupleLt
    simp

/-- C1: the result of a run pass equals the spec's minimum outstanding
requirement over the post-poll slot states — the earliest pending
deadline if some occupied slot has one, an indefinite wait for a wake
event if occupied slots remain without deadlines, and stop otherwise —
and the run loop stops exactly when no occupied slots remain. -/
theorem c1_run_once_min (slots : List (Option (Option Int))) :
    run_once slots = passSpec slots ∧
    (runDispatch (run_once slots) = LoopAction.stop ↔
      ∀ c ∈ slots, c = none) := by
  rcases slots with _ | ⟨s, rest⟩
  · constructor
    · rfl
    · simp [run_once, runDispatch]
  have hRdef : run_once (s :: rest)
      = (rest.map run_task).foldl minByTuple (run_task s) := rfl
  have hcell : ∃ c ∈ s :: rest, run_once (s :: rest) = run_task c := by
    rw [hRdef]
    rcases foldl_minByTuple_mem (rest.map run_task) (run_task s) with h | h
    · exact ⟨s, List.mem_cons_self s rest, h⟩
    · obtain ⟨c, hc, he⟩ := List.mem_map.mp h
      exact ⟨c, List.mem_cons_of_mem s hc, he.symm⟩
  have hlb : ∀ c ∈ s :: rest,
      ¬ tupleLt (run_task c).tuple (run_once (s :: rest)).tuple := by
    intro c hc
    obtain ⟨h1, h2⟩ := foldl_minByTuple_le (rest.map run_task) (run_task s)
    rcases List.mem_cons.mp hc with rfl | hc
    · rw [hRdef]; exact h1
    · rw [hRdef]; exact h2 _ (List.mem_map_of_mem run_task hc)
  rcases hds : slotDeadlines (s :: rest) with _ | ⟨d, ds⟩
  · -- no occupied slot has a pending deadline
    have hnone : ∀ c ∈ s :: rest, c.bind id = none := by
      intro c hc
      have h := List.filterMap_eq_nil_iff.mp hds
      exact h c hc
    have hrt : ∀ c ∈ s :: rest,
        run_task c = RunResult.WaitForEvent ∨
        run_task c = RunResult.NoMoreTasks := by
      intro c hc
      have h := hnone c hc
      rcases c with _ | c
      · right; rfl
      · rcases c with _ | v
        · left; rfl
        · simp at h
    by_cases hany : (s :: rest).any Option.isSome = true
    · -- occupied slots remain: the pass waits for an event
      obtain ⟨c0, hc0, hc0s⟩ := List.any_eq_true.mp hany
      have hc0e : c0 = some none := by
        rcases c0 with _ | c0
        · simp at hc0s
        · rcases c0 with _ | v
          · rfl
          · have h := hnone _ hc0
            simp at h
      have hRwe : run_once (s :: rest) = RunResult.WaitForEvent := by
        obtain ⟨c, hc, hRc⟩ := hcell
        have hwe := hlb c0 hc0
        rw [hc0e] at hwe
        rcases hrt c hc with h | h
        · rw [hRc, h]
        · exfalso
          rw [hRc, h] at hwe
          apply hwe
          unfold run_task RunResult.tuple tupleLt
          simp
      have hps : passSpec (s :: rest) = RunResult.WaitForEvent := by
        unfold passSpec
        rw [hds, hany]
        rfl
      rw [hRwe, hps]
      refine ⟨rfl, ?_⟩
      constructor
      · intro h; cases h
      · intro h
        have := h c0 hc0
        rw [hc0e] at this
        cases this
    · -- all slots are free: the loop stops
      have hallnone : ∀ c ∈ s :: rest, c = none := by
        intro c hc
        rcases c with _ | c
        · rfl
        · exfalso
          apply hany
          refine List.any_eq_true.mpr ⟨some c, hc, rfl⟩
      have hRnm : run_once (s :: rest) = RunResult.NoMoreTasks := by
        obtain ⟨c, hc, hRc⟩ := hcell
        rw [hRc, hallnone c hc]
        rfl
      have hps : passSpec (s :: rest) = RunResult.NoMoreTasks := by
        unfold passSpec
        rw [hds]
        simp only [Bool.not_eq_true] at hany
        rw [hany]
        rfl
      rw [hRnm, hps]
      refine ⟨rfl, ?_⟩
      constructor
      · intro _
        exact hallnone
      · intro _
        rfl
  · -- some occupied slot has a deadline: earliest deadline wins
    have hdmem : some (some d) ∈ s :: rest := by
      rw [← mem_slotDeadlines, hds]
      exact List.mem_cons_self d ds
    obtain ⟨m, hm, hmd⟩ := le_waitForTick _ d (by
      have h := hlb _ hdmem
      simpa [run_task] using h)
    have hmlb : ∀ x ∈ d :: ds, m ≤ x := by
      intro x hx
      have hxmem : some (some x) ∈ s :: rest := by
        rw [← mem_slotDeadlines, hds]
        exact hx
      obtain ⟨m2, hm2, hm2x⟩ := le_waitForTick _ x (by
        have h := hlb _ hxmem
        simpa [run_task] using h)
      rw [hm] at hm2
      cases hm2
      exact hm2x
    have hmmem : m ∈ d :: ds := by
      obtain ⟨c, hc, hRc⟩ := hcell
      rw [hRc] at hm
      have hcm : c = some (some m) := by
        rcases c with _ | c
        · cases hm
        · rcases c with _ | v
          · cases hm
          · unfold run_task at hm
            cases hm
            rfl
      rw [← hds, mem_slotDeadlines]
      rw [hcm] at hc
      exact hc
    have hmin : m = ds.foldl min d := by
      obtain ⟨hl1, hl2⟩ := foldl_min_le ds d
      have hfmem : ds.foldl min d ∈ d :: ds := by
        rcases foldl_min_mem ds d with h | h
        · rw [h]; exact List.mem_cons_self d ds
        · exact List.mem_cons_of_mem d h
      have hle1 : m ≤ ds.foldl min d := hmlb _ hfmem
      have hle2 : ds.foldl min d ≤ m := by
        rcases List.mem_cons.mp hmmem with rfl | h
        · exact hl1
        · exact hl2 _ h
      omega
    have hps : passSpec (s :: rest) = RunResult.WaitForTick (ds.foldl min d) := by
      unfold passSpec
      rw [hds]
    rw [hm, hps, hmin]
    refine ⟨rfl, ?_⟩
    constructor
    · intro h; cases h
    · intro h
      have := h _ hdmem
      cases this

/-- C5: for every mailbox state and value, post returns the previously
stored value, stores the new value, removes any waiter registration and
signals the removed waiter's wake handle (setting its bit in the shared
ready mask); the wake happens outside the critical-section body (which
never touches the mask), the two variants agree, and post is total. -/
theorem c5_post_behavior (T : Type) (m : Mailbox T) (v : T) (mask i : Nat) :
    (Mailbox.post m v mask).2.1 = m.value ∧
    (Mailbox.post m v mask).1.value = some v ∧
    (Mailbox.post m v mask).1.waker = none ∧
    (m.waker = none → (Mailbox.post m v mask).2.2 = mask) ∧
    (m.waker = some ⟨2 ^ i⟩ →
      ((Mailbox.post m v mask).2.2).testBit i = true) ∧
    (Mailbox.postCS m v).2.2 = m.waker ∧
    Mailbox.postSync m v mask = Mailbox.post m v mask := by
  refine ⟨rfl, rfl, rfl, fun h => ?_, fun h => ?_, rfl, rfl⟩
  · unfold Mailbox.post
    rw [h]
  · unfold Mailbox.post
    rw [h]
    exact wake_task_sets i mask

/-- Witness for C5: posting 42 over an unread 7 with waiter bit 0
registered returns the old 7, stores 42, clears the waiter and sets
bit 0 of the mask. -/
theorem c5_post_behavior_witness :
    (Mailbox.post (⟨some 7, some ⟨1⟩⟩ : Mailbox Nat) 42 0).2.1 = some 7 ∧
    (Mailbox.post (⟨some 7, some ⟨1⟩⟩ : Mailbox Nat) 42 0).1.value = some 42 ∧
    (Mailbox.post (⟨some 7, some ⟨1⟩⟩ : Mailbox Nat) 42 0).1.waker = none ∧
    ((Mailbox.post (⟨some 7, some ⟨1⟩⟩ : Mailbox Nat) 42 0).2.2).testBit 0
      = true :=
  ⟨(c5_post_behavior Nat ⟨some 7, some ⟨1⟩⟩ 42 0 0).1,
   (c5_post_behavior Nat ⟨some 7, some ⟨1⟩⟩ 42 0 0).2.1,
   (c5_post_behavior Nat ⟨some 7, some ⟨1⟩⟩ 42 0 0).2.2.1,
   (c5_post_behavior Nat ⟨some 7, some ⟨1⟩⟩ 42 0 0).2.2.2.2.1 rfl⟩

/-- C6: a read attempted while a waiter is registered fails immediately
with AlreadyWaiting and leaves the mailbox unchanged, so after a post
the first reader's next poll still completes with the posted value. -/
theorem c6_second_read_fails (T : Type) (m : Mailbox T)
    (first_waker : WakerInfo) (v : T) (mask : Nat)
    (h : m.waker = some first_waker) :
    (Mailbox.readCheck m).1 = .error .AlreadyWaiting ∧
    (Mailbox.readCheck m).2 = m ∧
    (Mailbox.pollRead (Mailbox.post (Mailbox.readCheck m).2 v mask).1
        first_waker).1 = some v := by
  rcases m with ⟨mv, mw⟩
  cases h
  exact ⟨rfl, rfl, rfl⟩

/-- Witness for C6 on a mailbox with waiter bit 0 registered and no
stored value: a second read errs, the state is intact, and posting 5
lets the first reader's poll return 5. -/
theorem c6_second_read_fails_witness :
    (Mailbox.readCheck (⟨none, some ⟨1⟩⟩ : Mailbox Nat)).1
      = .error .AlreadyWaiting ∧
    (Mailbox.readCheck (⟨none, some ⟨1⟩⟩ : Mailbox Nat)).2
      = ⟨none, some ⟨1⟩⟩ ∧
    (Mailbox.pollRead
        (Mailbox.post (Mailbox.readCheck (⟨none, some ⟨1⟩⟩ : Mailbox Nat)).2
          5 0).1 ⟨1⟩).1 = some 5 :=
  c6_second_read_fails Nat ⟨none, some ⟨1⟩⟩ ⟨1⟩ 5 0 rfl

/-- C7 counterexample: the same-context MailboxFuture has no Drop
cleanup, so abandoning a registered read leaves the waiter registered
and the next read fails with AlreadyWaiting — against the claim, which
asserts the cleanup for both variants. -/
theorem c7_drop_counterexample :
    (Mailbox.dropRead (⟨none, some ⟨1⟩⟩ : Mailbox Nat)).waker = some ⟨1⟩ ∧
    (Mailbox.readCheck (Mailbox.dropRead (⟨none, some ⟨1⟩⟩ : Mailbox Nat))).1
      = .error .AlreadyWaiting :=
  ⟨rfl, rfl⟩

/-- C7 amended: abandoning a pending read clears the waiter
registration in the cross-context (sync) variant only — after its drop
the mailbox is not busy and a subsequent read passes the busy check —
while the same-context variant performs no cleanup on drop. -/
theorem c7_sync_drop_clears (T : Type) (m : Mailbox T) :
    (Mailbox.dropReadSync m).waker = none ∧
    (Mailbox.readCheck (Mailbox.dropReadSync m)).1 = .ok () ∧
    Mailbox.dropRead m = m :=
  ⟨rfl, rfl, rfl⟩

/-- C10: with no waiter registered, try_read returns Ok of the stored
value and empties the value slot, so an immediately repeated try_read
returns Ok none; and in every case try_read leaves the waiter
registration exactly as it found it. -/
theorem c10_try_read (T : Type) (m : Mailbox T) :
    (m.waker = none →
      (Mailbox.try_read m).1 = .ok m.value ∧
      (Mailbox.try_read m).2.value = none ∧
      (Mailbox.try_read (Mailbox.try_read m).2).1 = .ok none) ∧
    (Mailbox.try_read m).2.waker = m.waker := by
  rcases m with ⟨mv, mw⟩
  rcases mw with _ | w
  · exact ⟨fun _ => ⟨rfl, rfl, rfl⟩, rfl⟩
  · refine ⟨fun h => ?_, rfl⟩
    cases h

/-- Witness for C10 on a waiterless mailbox holding 3: try_read returns
Ok (some 3), empties the slot, a second try_read returns Ok none, and
the waiter cell stays empty. -/
theorem c10_try_read_witness :
    (Mailbox.try_read (⟨some 3, none⟩ : Mailbox Nat)).1 = .ok (some 3) ∧
    (Mailbox.try_read (⟨some 3, none⟩ : Mailbox Nat)).2.value = none ∧
    (Mailbox.try_read
        (Mailbox.try_read (⟨some 3, none⟩ : Mailbox Nat)).2).1 = .ok none ∧
    (Mailbox.try_read (⟨some 3, none⟩ : Mailbox Nat)).2.waker = none :=
  ⟨((c10_try_read Nat ⟨some 3, none⟩).1 rfl).1,
   ((c10_try_read Nat ⟨some 3, none⟩).1 rfl).2.1,
   ((c10_try_read Nat ⟨some 3, none⟩).1 rfl).2.2,
   (c10_try_read Nat ⟨some 3, none⟩).2⟩

end RustAsyncScheduler
